import Mathlib

/-!
Shallow embedding of `src/arbitrage_bot.py`, a cross-venue arbitrage
detector.  One cycle: fetch two XE FX rates (USD/THB and MYR/THB), derive
USD/MYR by triangulation, then for each configured coin fetch KuCoin
(USDT) and Luno (MYR) best bid/ask, normalize the Luno quote into USD,
compute two directional spreads in basis points, append rows to a
spreadsheet log, and send Telegram alerts for spreads at or above the
configured threshold.

Prices and rates are modelled as rationals (the Python code uses floats;
all claims are about exact arithmetic identities, which hold for the real
formulas the floats approximate).  Network fetches are modelled by an
environment of `Except`-valued results: `Except.error e` stands for the
corresponding Python call raising an exception with message `e`.
Spreadsheet cells are either strings or numbers, so that an empty cell
`""` is distinguishable from the number `0`.
-/

/-- A spreadsheet cell: the Python code writes either strings (timestamp,
side, coin, empty cells, error text) or floats (prices, rates, spreads). -/
inductive Cell where
  | str (s : String)
  | num (q : ℚ)
deriving DecidableEq, Repr

/-- A spreadsheet row, as passed to `append_row` / `append_rows`. -/
abbrev Row := List Cell

/-- The header row appended by `ensure_headers` (source lines 79-84). -/
def headerRow : Row :=
  [Cell.str "Timestamp", Cell.str "Side", Cell.str "Coin",
   Cell.str "Luno(MYR)", Cell.str "KuCoin(USDT)",
   Cell.str "USD/MYR", Cell.str "USD/THB", Cell.str "MYR/THB",
   Cell.str "Luno(USD)", Cell.str "Spread(bps)", Cell.str "Error"]

/-- `ensure_headers` (source lines 74-84): if the log sheet has no values,
append the 11-column header row; otherwise leave the sheet untouched.
(The first `if` in the Python body is a no-op: its branch is `pass`.) -/
def ensure_headers (log : List Row) : List Row :=
  if log.length = 0 then log ++ [headerRow] else log

/-- Result of `load_settings` (source lines 60-72). -/
structure Settings where
  alertBps : ℚ
  cooldownMin : ℚ
  coins : List String
  tgToken : String
  tgChatId : String
deriving DecidableEq, Repr

/-- ASCII whitespace, as stripped by Python `str.strip()`. -/
def pyIsSpace (c : Char) : Bool := c = ' ' || c = '\t' || c = '\n' || c = '\r'

/-- `str.strip()` on the character list: drop whitespace at both ends. -/
def stripChars (cs : List Char) : List Char :=
  ((cs.dropWhile pyIsSpace).reverse.dropWhile pyIsSpace).reverse

/-- Python `str.strip()` (ASCII whitespace; the settings sheet holds plain
ASCII keys and values). -/
def pyStrip (s : String) : String := String.mk (stripChars s.toList)

/-- Python `str.split(",")` on the character list: `[[]]` on the empty
string, a group per comma-separated run otherwise. -/
def splitCommaChars : List Char → List (List Char)
  | [] => [[]]
  | c :: rest =>
      let r := splitCommaChars rest
      if c = ',' then [] :: r
      else match r with
        | [] => [[c]]
        | g :: gs => (c :: g) :: gs

/-- Python `str.split(",")`. -/
def pySplitComma (s : String) : List String :=
  (splitCommaChars s.toList).map String.mk

/-- Python `str.upper()` (ASCII coin symbols). -/
def pyUpper (s : String) : String := String.mk (s.toList.map Char.toUpper)

/-- One digit of a decimal literal, as accepted by Python `float`. -/
def digitsToNat (cs : List Char) : Option ℕ :=
  cs.foldlM (fun acc c => if c.isDigit then some (10 * acc + (c.toNat - 48)) else none) 0

/-- Unsigned part of Python `float(s)` on a plain decimal literal:
digits with at most one dot, at least one digit overall. -/
def pyFloatCore (cs : List Char) : Option ℚ :=
  let ip := cs.takeWhile (fun c => c ≠ '.')
  match cs.dropWhile (fun c => c ≠ '.') with
  | [] =>
      if ip.isEmpty then none
      else (digitsToNat ip).map (fun n => (n : ℚ))
  | _ :: fp =>
      if fp.any (fun c => c = '.') then none
      else if ip.isEmpty && fp.isEmpty then none
      else do
        let n ← digitsToNat ip
        let f ← digitsToNat fp
        pure ((n : ℚ) + (f : ℚ) / (10 : ℚ) ^ fp.length)

/-- Python `float(s)` restricted to plain decimal literals (optional sign,
digits, at most one dot), the forms settings values take; `none` models the
`ValueError` Python raises on anything unparseable. -/
def pyFloat (s : String) : Option ℚ :=
  match (pyStrip s).toList with
  | '-' :: rest => (pyFloatCore rest).map (fun q => -q)
  | '+' :: rest => pyFloatCore rest
  | cs => pyFloatCore cs

/-- Lookup in the settings dictionary `m` built by `load_settings` (source
lines 62-65): the dictionary keeps, for each nonempty stripped key, the
stripped value of the last row carrying it; `m.get key dflt` falls back to
`dflt` when no row has the key. -/
def settingsStep (key : String) (acc : Option String) (row : List String) :
    Option String :=
  match row with
  | k :: v :: _ =>
      if pyStrip k ≠ "" ∧ pyStrip k = key then some (pyStrip v) else acc
  | _ => acc

/-- The dictionary lookup itself. -/
def settingsGet (values : List (List String)) (key dflt : String) : String :=
  (values.foldl (settingsStep key) (none : Option String)).getD dflt

/-- `load_settings` (source lines 60-72): parse the threshold, cooldown,
coin list and Telegram credentials out of the key/value sheet; `none`
models the uncaught `ValueError` when a numeric value fails to parse. -/
def load_settings (values : List (List String)) : Option Settings := do
  let alertBps ← pyFloat (settingsGet values "ALERT_BPS" "200")
  let cooldownMin ← pyFloat (settingsGet values "COOLDOWN_MIN" "10")
  let coins := (pySplitComma (settingsGet values "COINS" "BTC,ETH")).filterMap
    (fun c => if pyStrip c = "" then none else some (pyUpper (pyStrip c)))
  let tgToken := settingsGet values "TELEGRAM_BOT_TOKEN" ""
  let tgChatId := settingsGet values "TELEGRAM_CHAT_ID" ""
  pure ⟨alertBps, cooldownMin, coins, tgToken, tgChatId⟩

/-- The results the cycle's network calls would return: `usdThb` and
`myrThb` model `get_xe_rate("USD","THB")` and `get_xe_rate("MYR","THB")`
(source lines 16-29, 96-98), `kucoin` models `kucoin_prices` (lines 31-37,
returning best bid and best ask) and `luno` models `luno_prices_myr`
(lines 39-45).  `Except.error e` stands for the call raising an exception
whose `str` is `e`. -/
structure Env where
  usdThb : Except String ℚ
  myrThb : Except String ℚ
  kucoin : String → Except String (ℚ × ℚ)
  luno : String → Except String (ℚ × ℚ)

/-- The derived USD/MYR cross rate, `usd_myr = usd_thb / myr_thb`
(source line 99). -/
def derive_usd_myr (usdThb myrThb : ℚ) : ℚ := usdThb / myrThb

/-- The midpoint-relative spread in basis points,
`10000 * ((x - y) / ((x + y) / 2))` (source lines 113 and 120). -/
def spreadBps (x y : ℚ) : ℚ := 10000 * ((x - y) / ((x + y) / 2))

/-- The alert decision applied to each computed spread:
`spr >= alert_bps` (source lines 115 and 122). -/
def alert_fires (spr alertBps : ℚ) : Bool := alertBps ≤ spr

/-- One Telegram alert tuple `(coin, side, spr, luno_usd, ku_price)`
(source lines 116 and 123). -/
structure Alert where
  coin : String
  side : String
  spr : ℚ
  lunoUsd : ℚ
  kuPrice : ℚ
deriving DecidableEq, Repr

/-- The error row appended when processing a coin raises
(source line 126): prices and spread are the empty string, the three FX
rates that were already available are numbers, and the last cell is the
exception text. -/
def errRow (ts coin : String) (usdMyr usdThb myrThb : ℚ) (e : String) : Row :=
  [Cell.str ts, Cell.str "ERR", Cell.str coin, Cell.str "", Cell.str "",
   Cell.num usdMyr, Cell.num usdThb, Cell.num myrThb,
   Cell.str "", Cell.str "", Cell.str e]

/-- The body of the per-coin `try`/`except` (source lines 107-126): fetch
KuCoin then Luno, build the Bid-side and Ask-side rows and alerts; any
exception (a failed fetch, or a float division by zero when `usd_myr` or a
midpoint is zero) is caught and turned into a single error row.  A
division by zero on the Ask side happens after the Bid row and alert were
already appended, so those survive, exactly as the mutable Python lists
do. -/
def process_coin (ts : String) (usdMyr usdThb myrThb alertBps : ℚ)
    (env : Env) (coin : String) : List Row × List Alert :=
  match env.kucoin coin with
  | Except.error e => ([errRow ts coin usdMyr usdThb myrThb e], [])
  | Except.ok (kuBid, kuAsk) =>
    match env.luno coin with
    | Except.error e => ([errRow ts coin usdMyr usdThb myrThb e], [])
    | Except.ok (luBid, luAsk) =>
      if usdMyr = 0 then
        ([errRow ts coin usdMyr usdThb myrThb "float division by zero"], [])
      else
        let lunoUsdB := luBid / usdMyr
        if lunoUsdB + kuAsk = 0 then
          ([errRow ts coin usdMyr usdThb myrThb "float division by zero"], [])
        else
          let sprB := spreadBps lunoUsdB kuAsk
          let rowB : Row :=
            [Cell.str ts, Cell.str "Bid", Cell.str coin, Cell.num luBid,
             Cell.num kuAsk, Cell.num usdMyr, Cell.num usdThb,
             Cell.num myrThb, Cell.num lunoUsdB, Cell.num sprB, Cell.str ""]
          let alertsB := if alert_fires sprB alertBps then
              [Alert.mk coin "Bid" sprB lunoUsdB kuAsk] else []
          let lunoUsdA := luAsk / usdMyr
          if lunoUsdA + kuBid = 0 then
            ([rowB, errRow ts coin usdMyr usdThb myrThb "float division by zero"],
             alertsB)
          else
            let sprA := spreadBps lunoUsdA kuBid
            let rowA : Row :=
              [Cell.str ts, Cell.str "Ask", Cell.str coin, Cell.num luAsk,
               Cell.num kuBid, Cell.num usdMyr, Cell.num usdThb,
               Cell.num myrThb, Cell.num lunoUsdA, Cell.num sprA, Cell.str ""]
            let alertsA := if alert_fires sprA alertBps then
                [Alert.mk coin "Ask" sprA lunoUsdA kuBid] else []
            ([rowB, rowA], alertsB ++ alertsA)

/-- The `for coin in coins` loop (source lines 106-126), accumulating the
`rows` and `alerts` lists. -/
def process_coins (ts : String) (usdMyr usdThb myrThb alertBps : ℚ)
    (env : Env) : List String → List Row × List Alert
  | [] => ([], [])
  | coin :: rest =>
      let (r, a) := process_coin ts usdMyr usdThb myrThb alertBps env coin
      let (rs, as2) := process_coins ts usdMyr usdThb myrThb alertBps env rest
      (r ++ rs, a ++ as2)

/-- Outcome of a cycle that got past the FX fetches: the alert tuples, and
the subset of them actually handed to `send_telegram`. -/
structure CycleOutcome where
  alerts : List Alert
  sent : List Alert
deriving DecidableEq, Repr

/-- `main` after `ensure_headers` and `load_settings` (source lines
95-146): fetch the two XE rates (either failure, or a zero MYR/THB rate,
propagates as an uncaught exception with the sheet left as it was),
derive USD/MYR, process every coin, append the rows in one batch, and
send a Telegram message per alert when both credentials are nonempty
(Python string truthiness in `if tg_token and tg_chat_id`).  Returns the
final sheet contents and either the error that escaped or the outcome. -/
def cycle_with_settings (s : Settings) (log1 : List Row) (ts : String)
    (env : Env) : List Row × Except String CycleOutcome :=
  match env.usdThb with
  | Except.error e => (log1, Except.error e)
  | Except.ok usdThb =>
    match env.myrThb with
    | Except.error e => (log1, Except.error e)
    | Except.ok myrThb =>
      if myrThb = 0 then (log1, Except.error "float division by zero")
      else
        let usdMyr := derive_usd_myr usdThb myrThb
        let ra := process_coins ts usdMyr usdThb myrThb s.alertBps env s.coins
        let sent := if s.tgToken ≠ "" ∧ s.tgChatId ≠ "" then ra.2 else []
        (log1 ++ ra.1, Except.ok ⟨ra.2, sent⟩)

/-- `main` (source lines 86-146) as a pure cycle function (named `main_cycle` since Lean reserves `main`): `ensure_headers`
runs first, then `load_settings` (an unparseable numeric setting raises
uncaught), then the FX fetches and the per-coin loop.  Inputs: the Setting
tab values, the Log tab contents, the timestamp string, and the network
environment. -/
def main_cycle (settingRows : List (List String)) (log : List Row) (ts : String)
    (env : Env) : List Row × Except String CycleOutcome :=
  let log1 := ensure_headers log
  match load_settings settingRows with
  | none => (log1, Except.error "could not convert string to float")
  | some s => cycle_with_settings s log1 ts env

/-! ### Helper predicates and lemmas -/

/-- A row written by the per-coin exception handler: the second cell is
the string `"ERR"`. -/
def isErrRow (r : Row) : Bool := r.get? 1 = some (Cell.str "ERR")

/-- Both venue fetches for a coin succeed with strictly positive prices. -/
def goodQuote (env : Env) (c : String) : Prop :=
  ∃ kuBid kuAsk luBid luAsk,
    env.kucoin c = Except.ok (kuBid, kuAsk) ∧
    env.luno c = Except.ok (luBid, luAsk) ∧
    0 < kuBid ∧ 0 < kuAsk ∧ 0 < luBid ∧ 0 < luAsk

lemma process_coin_ok_eq (ts coin : String)
    (usdMyr usdThb myrThb t kuBid kuAsk luBid luAsk : ℚ) (env : Env)
    (hk : env.kucoin coin = Except.ok (kuBid, kuAsk))
    (hl : env.luno coin = Except.ok (luBid, luAsk))
    (h0 : usdMyr ≠ 0)
    (h1 : luBid / usdMyr + kuAsk ≠ 0)
    (h2 : luAsk / usdMyr + kuBid ≠ 0) :
    process_coin ts usdMyr usdThb myrThb t env coin =
      ([[Cell.str ts, Cell.str "Bid", Cell.str coin, Cell.num luBid,
         Cell.num kuAsk, Cell.num usdMyr, Cell.num usdThb, Cell.num myrThb,
         Cell.num (luBid / usdMyr),
         Cell.num (spreadBps (luBid / usdMyr) kuAsk), Cell.str ""],
        [Cell.str ts, Cell.str "Ask", Cell.str coin, Cell.num luAsk,
         Cell.num kuBid, Cell.num usdMyr, Cell.num usdThb, Cell.num myrThb,
         Cell.num (luAsk / usdMyr),
         Cell.num (spreadBps (luAsk / usdMyr) kuBid), Cell.str ""]],
       (if alert_fires (spreadBps (luBid / usdMyr) kuAsk) t then
          [Alert.mk coin "Bid" (spreadBps (luBid / usdMyr) kuAsk)
            (luBid / usdMyr) kuAsk] else []) ++
       (if alert_fires (spreadBps (luAsk / usdMyr) kuBid) t then
          [Alert.mk coin "Ask" (spreadBps (luAsk / usdMyr) kuBid)
            (luAsk / usdMyr) kuBid] else [])) := by
  simp [process_coin, hk, hl, h0, h1, h2]

lemma process_coin_err_eq (ts coin : String)
    (usdMyr usdThb myrThb t : ℚ) (env : Env) (e : String)
    (hbad : env.kucoin coin = Except.error e ∨
      ∃ q, env.kucoin coin = Except.ok q ∧ env.luno coin = Except.error e) :
    process_coin ts usdMyr usdThb myrThb t env coin =
      ([errRow ts coin usdMyr usdThb myrThb e], []) := by
  rcases hbad with h | ⟨⟨kuBid, kuAsk⟩, h1, h2⟩
  · simp [process_coin, h]
  · simp [process_coin, h1, h2]

/-! ### Concrete environments used by the witnesses -/

/-- A cycle in which everything succeeds, with integer prices and rates. -/
def envW : Env where
  usdThb := Except.ok 34
  myrThb := Except.ok 2
  kucoin := fun _ => Except.ok (100, 101)
  luno := fun _ => Except.ok (420, 421)

/-- A cycle in which both XE fetches fail to parse. -/
def envFxFail : Env where
  usdThb := Except.error "XE parse failed for USD->THB"
  myrThb := Except.error "XE parse failed for MYR->THB"
  kucoin := fun _ => Except.error "QuoteUnavailable"
  luno := fun _ => Except.error "QuoteUnavailable"

/-- A cycle in which the XE fetches succeed but the KuCoin fetch for ETH
fails. -/
def envEthFail : Env where
  usdThb := Except.ok 34
  myrThb := Except.ok 2
  kucoin := fun c => if c = "ETH" then Except.error "QuoteUnavailable" else Except.ok (100, 101)
  luno := fun _ => Except.ok (420, 421)

/-! ### Claims -/

/-- Claim C1: for positive prices and a positive derived rate, the spread
computation produces exactly two rows per coin: a Bid row whose normalized
price is Luno's bid divided by the derived rate with
`spreadBps = 10000 * (normBid - kuAsk) / ((normBid + kuAsk) / 2)`, and an
Ask row whose normalized price is Luno's ask divided by the derived rate
with `spreadBps = 10000 * (normAsk - kuBid) / ((normAsk + kuBid) / 2)`,
the subtraction order exactly as stated, appended whatever the sign of the
spread. -/
theorem spread_two_directions (ts coin : String)
    (usdMyr usdThb myrThb t kuBid kuAsk luBid luAsk : ℚ) (env : Env)
    (hk : env.kucoin coin = Except.ok (kuBid, kuAsk))
    (hl : env.luno coin = Except.ok (luBid, luAsk))
    (hkb : 0 < kuBid) (hka : 0 < kuAsk) (hlb : 0 < luBid) (hla : 0 < luAsk)
    (hr : 0 < usdMyr) :
    (process_coin ts usdMyr usdThb myrThb t env coin).1 =
      [[Cell.str ts, Cell.str "Bid", Cell.str coin, Cell.num luBid,
        Cell.num kuAsk, Cell.num usdMyr, Cell.num usdThb, Cell.num myrThb,
        Cell.num (luBid / usdMyr),
        Cell.num (10000 * ((luBid / usdMyr - kuAsk) / ((luBid / usdMyr + kuAsk) / 2))),
        Cell.str ""],
       [Cell.str ts, Cell.str "Ask", Cell.str coin, Cell.num luAsk,
        Cell.num kuBid, Cell.num usdMyr, Cell.num usdThb, Cell.num myrThb,
        Cell.num (luAsk / usdMyr),
        Cell.num (10000 * ((luAsk / usdMyr - kuBid) / ((luAsk / usdMyr + kuBid) / 2))),
        Cell.str ""]] := by
  have h0 : usdMyr ≠ 0 := ne_of_gt hr
  have h1 : luBid / usdMyr + kuAsk ≠ 0 := (add_pos (div_pos hlb hr) hka).ne'
  have h2 : luAsk / usdMyr + kuBid ≠ 0 := (add_pos (div_pos hla hr) hkb).ne'
  rw [process_coin_ok_eq ts coin usdMyr usdThb myrThb t kuBid kuAsk luBid luAsk env hk hl h0 h1 h2]
  simp [spreadBps]

/-- Claim C1 witness: the theorem applied to the all-success environment. -/
theorem spread_two_directions_witness :
    (process_coin "t" 4 34 2 200 envW "BTC").1 =
      [[Cell.str "t", Cell.str "Bid", Cell.str "BTC", Cell.num 420,
        Cell.num 101, Cell.num 4, Cell.num 34, Cell.num 2,
        Cell.num (420 / 4),
        Cell.num (10000 * ((420 / 4 - 101) / ((420 / 4 + 101) / 2))),
        Cell.str ""],
       [Cell.str "t", Cell.str "Ask", Cell.str "BTC", Cell.num 421,
        Cell.num 100, Cell.num 4, Cell.num 34, Cell.num 2,
        Cell.num (421 / 4),
        Cell.num (10000 * ((421 / 4 - 100) / ((421 / 4 + 100) / 2))),
        Cell.str ""]] :=
  spread_two_directions "t" "BTC" 4 34 2 200 100 101 420 421 envW rfl rfl
    (by decide) (by decide) (by decide) (by decide) (by decide)

/-- Claim C2: the derived cross rate is the primary-to-bridge rate divided
by the secondary-to-bridge rate; for USD/THB = 34.50 and MYR/THB = 8.20
the derived USD/MYR rate is 34.50/8.20 within tolerance 1e-9 (the model
computes with exact rationals, so the difference is 0). -/
theorem derived_rate_is_ratio (r1 r2 : ℚ) (h : 0 < r2) :
    derive_usd_myr r1 r2 = r1 / r2 ∧
    |derive_usd_myr (345/10) (82/10) - (345/10) / (82/10)| ≤ 1 / 1000000000 := by
  refine ⟨rfl, ?_⟩
  norm_num [derive_usd_myr]

/-- Claim C2 witness: the theorem applied at rates 34 and 2. -/
theorem derived_rate_is_ratio_witness :
    derive_usd_myr 34 2 = 34 / 2 ∧
    |derive_usd_myr (345/10) (82/10) - (345/10) / (82/10)| ≤ 1 / 1000000000 :=
  derived_rate_is_ratio 34 2 (by decide)

/-- Claim C3: an alert fires if and only if the spread is at or above the
threshold (inclusive boundary: 200 fires at threshold 200, 199.999 does
not); with a non-negative threshold a negative spread never fires; and the
two directions of a coin are evaluated independently, each contributing
its own alert, so a coin yields at most two alerts per cycle. -/
theorem alert_threshold_inclusive (spr t : ℚ) (ts coin : String)
    (usdMyr usdThb myrThb kuBid kuAsk luBid luAsk : ℚ) (env : Env)
    (hk : env.kucoin coin = Except.ok (kuBid, kuAsk))
    (hl : env.luno coin = Except.ok (luBid, luAsk))
    (hkb : 0 < kuBid) (hka : 0 < kuAsk) (hlb : 0 < luBid) (hla : 0 < luAsk)
    (hr : 0 < usdMyr) :
    (alert_fires spr t = true ↔ spr ≥ t) ∧
    alert_fires 200 200 = true ∧
    alert_fires (199999/1000) 200 = false ∧
    (0 ≤ t → spr < 0 → alert_fires spr t = false) ∧
    (process_coin ts usdMyr usdThb myrThb t env coin).2 =
      (if alert_fires (spreadBps (luBid / usdMyr) kuAsk) t then
        [Alert.mk coin "Bid" (spreadBps (luBid / usdMyr) kuAsk)
          (luBid / usdMyr) kuAsk] else []) ++
      (if alert_fires (spreadBps (luAsk / usdMyr) kuBid) t then
        [Alert.mk coin "Ask" (spreadBps (luAsk / usdMyr) kuBid)
          (luAsk / usdMyr) kuBid] else []) ∧
    (process_coin ts usdMyr usdThb myrThb t env coin).2.length ≤ 2 := by
  have h0 : usdMyr ≠ 0 := ne_of_gt hr
  have h1 : luBid / usdMyr + kuAsk ≠ 0 := (add_pos (div_pos hlb hr) hka).ne'
  have h2 : luAsk / usdMyr + kuBid ≠ 0 := (add_pos (div_pos hla hr) hkb).ne'
  have hpc := process_coin_ok_eq ts coin usdMyr usdThb myrThb t kuBid kuAsk
    luBid luAsk env hk hl h0 h1 h2
  refine ⟨by simp [alert_fires], by norm_num [alert_fires],
    by norm_num [alert_fires], ?_, ?_, ?_⟩
  · intro hti hsn
    simp only [alert_fires, decide_eq_false_iff_not, not_le]
    linarith
  · rw [hpc]
  · rw [hpc]
    split_ifs <;> simp

/-- Claim C3 witness: the theorem applied to the all-success environment;
the projection shows a negative spread does not fire at threshold 200. -/
theorem alert_threshold_inclusive_witness :
    alert_fires (-1) 200 = false :=
  (alert_threshold_inclusive (-1) 200 "t" "BTC" 4 34 2 100 101 420 421 envW
    rfl rfl (by decide) (by decide) (by decide) (by decide)
    (by decide)).2.2.2.1 (by decide) (by decide)

/-- Claim C6: swapping the two prices flips the sign of the
midpoint-relative spread and preserves its magnitude. -/
theorem spreadBps_antisymm (p q : ℚ) (hp : 0 < p) (hq : 0 < q) :
    spreadBps p q = -spreadBps q p := by
  unfold spreadBps
  rw [add_comm q p]
  ring

/-- Claim C6 witness: the theorem applied at prices 105 and 101. -/
theorem spreadBps_antisymm_witness :
    spreadBps 105 101 = -spreadBps 101 105 :=
  spreadBps_antisymm 105 101 (by decide) (by decide)

/-- Claim C7: on a per-coin failure the single error row carries the three
FX rates that were already available (derived USD/MYR, USD/THB, MYR/THB)
and the exception text, while the four price and spread cells (Luno(MYR),
KuCoin(USDT), Luno(USD), Spread(bps)) hold the empty string, which is a
different cell value from the number 0. -/
theorem error_record_fields (ts coin : String)
    (usdMyr usdThb myrThb t : ℚ) (env : Env) (e : String)
    (hbad : env.kucoin coin = Except.error e ∨
      ∃ q, env.kucoin coin = Except.ok q ∧ env.luno coin = Except.error e) :
    (process_coin ts usdMyr usdThb myrThb t env coin).1 =
      [[Cell.str ts, Cell.str "ERR", Cell.str coin, Cell.str "", Cell.str "",
        Cell.num usdMyr, Cell.num usdThb, Cell.num myrThb,
        Cell.str "", Cell.str "", Cell.str e]] ∧
    Cell.str "" ≠ Cell.num 0 := by
  rw [process_coin_err_eq ts coin usdMyr usdThb myrThb t env e hbad]
  exact ⟨rfl, by simp⟩

/-- Claim C7 witness: the theorem applied to the environment whose KuCoin
fetch for ETH fails. -/
theorem error_record_fields_witness :
    (process_coin "t" 4 34 2 200 envEthFail "ETH").1 =
      [[Cell.str "t", Cell.str "ERR", Cell.str "ETH", Cell.str "", Cell.str "",
        Cell.num 4, Cell.num 34, Cell.num 2,
        Cell.str "", Cell.str "", Cell.str "QuoteUnavailable"]] ∧
    Cell.str "" ≠ Cell.num 0 :=
  error_record_fields "t" "ETH" 4 34 2 200 envEthFail "QuoteUnavailable"
    (Or.inl rfl)

lemma process_coin_good_counts (ts : String) (usdMyr usdThb myrThb t : ℚ)
    (env : Env) (c : String) (hr : 0 < usdMyr) (h : goodQuote env c) :
    ((process_coin ts usdMyr usdThb myrThb t env c).1.filter
      (fun r => isErrRow r)).length = 0 ∧
    ((process_coin ts usdMyr usdThb myrThb t env c).1.filter
      (fun r => !isErrRow r)).length = 2 := by
  obtain ⟨kuBid, kuAsk, luBid, luAsk, hk, hl, h1, h2, h3, h4⟩ := h
  have h0 : usdMyr ≠ 0 := ne_of_gt hr
  have hb1 : luBid / usdMyr + kuAsk ≠ 0 := (add_pos (div_pos h3 hr) h2).ne'
  have hb2 : luAsk / usdMyr + kuBid ≠ 0 := (add_pos (div_pos h4 hr) h1).ne'
  rw [process_coin_ok_eq ts c usdMyr usdThb myrThb t kuBid kuAsk luBid luAsk
    env hk hl h0 hb1 hb2]
  simp [isErrRow]

lemma process_coin_bad_counts (ts : String) (usdMyr usdThb myrThb t : ℚ)
    (env : Env) (c : String)
    (hbad : (∃ e, env.kucoin c = Except.error e) ∨
      (∃ q e, env.kucoin c = Except.ok q ∧ env.luno c = Except.error e)) :
    ((process_coin ts usdMyr usdThb myrThb t env c).1.filter
      (fun r => isErrRow r)).length = 1 ∧
    ((process_coin ts usdMyr usdThb myrThb t env c).1.filter
      (fun r => !isErrRow r)).length = 0 := by
  have : ∃ e, process_coin ts usdMyr usdThb myrThb t env c =
      ([errRow ts c usdMyr usdThb myrThb e], []) := by
    rcases hbad with ⟨e, he⟩ | ⟨q, e, hq, he⟩
    · exact ⟨e, process_coin_err_eq ts c usdMyr usdThb myrThb t env e (Or.inl he)⟩
    · exact ⟨e, process_coin_err_eq ts c usdMyr usdThb myrThb t env e (Or.inr ⟨q, hq, he⟩)⟩
  obtain ⟨e, he⟩ := this
  rw [he]
  simp [isErrRow, errRow]

lemma process_coins_cons (ts : String) (usdMyr usdThb myrThb t : ℚ)
    (env : Env) (c : String) (rest : List String) :
    (process_coins ts usdMyr usdThb myrThb t env (c :: rest)).1 =
      (process_coin ts usdMyr usdThb myrThb t env c).1 ++
      (process_coins ts usdMyr usdThb myrThb t env rest).1 := by
  simp [process_coins]

lemma process_coins_all_good (ts : String) (usdMyr usdThb myrThb t : ℚ)
    (env : Env) (coins : List String) (hr : 0 < usdMyr)
    (h : ∀ c ∈ coins, goodQuote env c) :
    ((process_coins ts usdMyr usdThb myrThb t env coins).1.filter
      (fun r => isErrRow r)).length = 0 ∧
    ((process_coins ts usdMyr usdThb myrThb t env coins).1.filter
      (fun r => !isErrRow r)).length = 2 * coins.length := by
  induction coins with
  | nil => simp [process_coins]
  | cons c rest ih =>
    obtain ⟨e0, e2⟩ := process_coin_good_counts ts usdMyr usdThb myrThb t env c
      hr (h c (List.mem_cons_self c rest))
    obtain ⟨i0, i2⟩ := ih (fun d hd => h d (List.mem_cons_of_mem c hd))
    rw [process_coins_cons]
    simp only [List.filter_append, List.length_append, e0, e2, i0, i2,
      List.length_cons]
    exact ⟨trivial, by omega⟩

/-- Claim C5: when exactly one coin in the configured list fails its venue
fetch and every other coin's fetches succeed (with positive prices and a
positive derived rate, so the computations succeed too), the cycle
produces exactly one error row for the failed coin and exactly two
success rows per remaining coin (2 * (N - 1) in total): the one failure
does not stop the loop. -/
theorem single_failure_isolated (ts : String) (usdMyr usdThb myrThb t : ℚ)
    (env : Env) (coins : List String) (bad : String)
    (hr : 0 < usdMyr) (hmem : bad ∈ coins) (hcount : coins.count bad = 1)
    (hgood : ∀ c ∈ coins, c ≠ bad → goodQuote env c)
    (hbad : (∃ e, env.kucoin bad = Except.error e) ∨
      (∃ q e, env.kucoin bad = Except.ok q ∧ env.luno bad = Except.error e)) :
    ((process_coins ts usdMyr usdThb myrThb t env coins).1.filter
      (fun r => isErrRow r)).length = 1 ∧
    ((process_coins ts usdMyr usdThb myrThb t env coins).1.filter
      (fun r => !isErrRow r)).length = 2 * (coins.length - 1) := by
  induction coins with
  | nil => cases hmem
  | cons c rest ih =>
    by_cases hc : c = bad
    · subst hc
      have hz : rest.count c = 0 := by
        have := hcount
        rw [List.count_cons_self] at this
        omega
      have hrest : ∀ d ∈ rest, goodQuote env d := by
        intro d hd
        refine hgood d (List.mem_cons_of_mem c hd) ?_
        intro hdc
        subst hdc
        exact absurd hz (by simpa using (List.count_pos_iff_mem.mpr hd).ne')
      obtain ⟨g0, g2⟩ := process_coins_all_good ts usdMyr usdThb myrThb t env
        rest hr hrest
      obtain ⟨b1, b0⟩ := process_coin_bad_counts ts usdMyr usdThb myrThb t env
        c hbad
      rw [process_coins_cons]
      simp only [List.filter_append, List.length_append, b1, b0, g0, g2,
        List.length_cons]
      exact ⟨trivial, by omega⟩
    · have hbmem : bad ∈ rest := by
        rcases List.mem_cons.mp hmem with h1 | h1
        · exact absurd h1.symm hc
        · exact h1
      have hcnt : rest.count bad = 1 := by
        have := hcount
        rw [List.count_cons_of_ne (fun h => hc h.symm)] at this
        exact this
      obtain ⟨i1, i2⟩ := ih hbmem hcnt
        (fun d hd hne => hgood d (List.mem_cons_of_mem c hd) hne)
      obtain ⟨e0, e2⟩ := process_coin_good_counts ts usdMyr usdThb myrThb t
        env c hr (hgood c (List.mem_cons_self c rest) hc)
      have hlen : 1 ≤ rest.length := by
        rcases rest with _ | ⟨x, xs⟩
        · cases hbmem
        · simp
      rw [process_coins_cons]
      simp only [List.filter_append, List.length_append, e0, e2, i1, i2,
        List.length_cons]
      exact ⟨trivial, by omega⟩

/-- Claim C5 witness: with coins `[BTC, ETH]` and a KuCoin failure for ETH
only, the cycle yields one error row and two success rows. -/
theorem single_failure_isolated_witness :
    ((process_coins "t" 4 34 2 200 envEthFail ["BTC", "ETH"]).1.filter
      (fun r => isErrRow r)).length = 1 ∧
    ((process_coins "t" 4 34 2 200 envEthFail ["BTC", "ETH"]).1.filter
      (fun r => !isErrRow r)).length = 2 * ((["BTC", "ETH"] : List String).length - 1) :=
  single_failure_isolated "t" 4 34 2 200 envEthFail ["BTC", "ETH"] "ETH"
    (by decide) (by decide) (by decide)
    (by
      intro c hc hne
      rcases List.mem_cons.mp hc with h1 | h2
      · subst h1
        exact ⟨100, 101, 420, 421, rfl, rfl, by decide, by decide, by decide,
          by decide⟩
      · exact absurd (List.mem_singleton.mp h2) hne)
    (Or.inl ⟨"QuoteUnavailable", rfl⟩)

lemma foldl_settingsStep_none (values : List (List String)) (key : String)
    (h : ∀ row ∈ values, ∀ k v rest, row = k :: v :: rest → pyStrip k ≠ key) :
    values.foldl (settingsStep key) none = none := by
  induction values with
  | nil => rfl
  | cons row rest ih =>
    have hstep : settingsStep key none row = none := by
      rcases row with _ | ⟨k, _ | ⟨v, r⟩⟩
      · rfl
      · rfl
      · have hk := h (k :: v :: r) (List.mem_cons_self _ _) k v r rfl
        simp [settingsStep, hk]
    rw [List.foldl_cons, hstep]
    exact ih (fun row2 hrow2 => h row2 (List.mem_cons_of_mem _ hrow2))

lemma settingsGet_no_key (values : List (List String)) (key dflt : String)
    (h : ∀ row ∈ values, ∀ k v rest, row = k :: v :: rest → pyStrip k ≠ key) :
    settingsGet values key dflt = dflt := by
  unfold settingsGet
  rw [foldl_settingsStep_none values key h]
  rfl

lemma load_settings_proj (values : List (List String)) (s : Settings)
    (h : load_settings values = some s) :
    pyFloat (settingsGet values "ALERT_BPS" "200") = some s.alertBps ∧
    pyFloat (settingsGet values "COOLDOWN_MIN" "10") = some s.cooldownMin ∧
    s.coins = (pySplitComma (settingsGet values "COINS" "BTC,ETH")).filterMap
      (fun c => if pyStrip c = "" then none else some (pyUpper (pyStrip c))) ∧
    s.tgToken = settingsGet values "TELEGRAM_BOT_TOKEN" "" ∧
    s.tgChatId = settingsGet values "TELEGRAM_CHAT_ID" "" := by
  unfold load_settings at h
  cases ha : pyFloat (settingsGet values "ALERT_BPS" "200") with
  | none => rw [ha] at h; simp at h
  | some a =>
    cases hb : pyFloat (settingsGet values "COOLDOWN_MIN" "10") with
    | none => rw [ha, hb] at h; simp at h
    | some b =>
      rw [ha, hb] at h
      simp only [Option.bind_eq_bind, Option.some_bind, Option.pure_def,
        Option.some.injEq] at h
      subst h
      exact ⟨rfl, rfl, rfl, rfl, rfl⟩

/-- Claim C8: the cooldown setting is read and defaulted to 10 but never
applied: two cycles whose parsed settings differ at most in
`cooldownMin`, run on the same log, timestamp and fetched data, produce
the same final sheet and the same outcome (records, alerts and sends);
and when no settings row carries the key COOLDOWN_MIN, `load_settings`
still yields `cooldownMin = 10`. -/
theorem cooldown_never_applied
    (sr1 sr2 : List (List String)) (s1 s2 : Settings)
    (log : List Row) (ts : String) (env : Env)
    (h1 : load_settings sr1 = some s1) (h2 : load_settings sr2 = some s2)
    (ha : s1.alertBps = s2.alertBps) (hc : s1.coins = s2.coins)
    (ht : s1.tgToken = s2.tgToken) (hd : s1.tgChatId = s2.tgChatId) :
    main_cycle sr1 log ts env = main_cycle sr2 log ts env ∧
    (∀ values s, (∀ row ∈ values, ∀ k v rest, row = k :: v :: rest →
        pyStrip k ≠ "COOLDOWN_MIN") →
      load_settings values = some s → s.cooldownMin = 10) := by
  constructor
  · unfold main_cycle
    rw [h1, h2]
    rcases s1 with ⟨a1, cd1, co1, t1, d1⟩
    rcases s2 with ⟨a2, cd2, co2, t2, d2⟩
    simp only at ha hc ht hd
    subst ha
    subst hc
    subst ht
    subst hd
    rfl
  · intro values s hkey hs
    have hget := settingsGet_no_key values "COOLDOWN_MIN" "10" hkey
    obtain ⟨_, hcd, _, _, _⟩ := load_settings_proj values s hs
    rw [hget] at hcd
    have h10 : pyFloat "10" = some 10 := by decide
    rw [h10] at hcd
    exact (Option.some.inj hcd).symm

/-- Claim C8 witness: settings sheets with cooldown 5 and cooldown 7 give
identical cycles. -/
theorem cooldown_never_applied_witness :
    main_cycle [["COOLDOWN_MIN", "5"]] [headerRow] "t" envW =
      main_cycle [["COOLDOWN_MIN", "7"]] [headerRow] "t" envW :=
  (cooldown_never_applied [["COOLDOWN_MIN", "5"]] [["COOLDOWN_MIN", "7"]]
    ⟨200, 5, ["BTC", "ETH"], "", ""⟩ ⟨200, 7, ["BTC", "ETH"], "", ""⟩
    [headerRow] "t" envW (by decide) (by decide) rfl rfl rfl rfl).1

/-- Claim C9: the 11-column header row (Timestamp, Side, Coin, Luno(MYR),
KuCoin(USDT), USD/MYR, USD/THB, MYR/THB, Luno(USD), Spread(bps), Error)
is appended if and only if the sink is empty, the insertion is idempotent
(so it happens once over the sink's lifetime), and the header check runs
before the FX fetches: even in a cycle whose first FX fetch fails, the
header has already been appended to an empty sink. -/
theorem header_appended_iff_empty (log : List Row) (sr : List (List String))
    (ts : String) (env : Env) (e : String)
    (hne : log ≠ []) (hfx : env.usdThb = Except.error e) :
    ensure_headers [] =
      [[Cell.str "Timestamp", Cell.str "Side", Cell.str "Coin",
        Cell.str "Luno(MYR)", Cell.str "KuCoin(USDT)",
        Cell.str "USD/MYR", Cell.str "USD/THB", Cell.str "MYR/THB",
        Cell.str "Luno(USD)", Cell.str "Spread(bps)", Cell.str "Error"]] ∧
    ensure_headers log = log ∧
    (∀ l : List Row, ensure_headers (ensure_headers l) = ensure_headers l) ∧
    (main_cycle sr [] ts env).1 = [headerRow] ∧
    (main_cycle sr log ts env).1 = log := by
  have hh : ∀ l : List Row, l ≠ [] → ensure_headers l = l := by
    intro l hl
    unfold ensure_headers
    rw [if_neg]
    simpa [List.length_eq_zero] using hl
  have hm : ∀ l : List Row, (main_cycle sr l ts env).1 = ensure_headers l := by
    intro l
    unfold main_cycle
    cases load_settings sr with
    | none => rfl
    | some s => simp [cycle_with_settings, hfx]
  refine ⟨rfl, hh log hne, ?_, ?_, ?_⟩
  · intro l
    rcases eq_or_ne l [] with rfl | hl
    · rfl
    · rw [hh l hl, hh l hl]
  · rw [hm []]
    rfl
  · rw [hm log]
    exact hh log hne

/-- Claim C9 witness: on the empty sink, a cycle whose FX fetch fails has
still appended exactly the header row. -/
theorem header_appended_iff_empty_witness :
    (main_cycle [] [] "t" envFxFail).1 = [headerRow] :=
  (header_appended_iff_empty [headerRow] [] "t" envFxFail
    "XE parse failed for USD->THB" (by decide) rfl).2.2.2.1

/-- Claim C10: when the Telegram token or chat id is the empty string, a
cycle that gets past the FX fetches sends no notification at all even if
alerts were generated, and still appends its records to the sink
unchanged; both credentials default to the empty string when their keys
are absent from the settings sheet. -/
theorem no_send_without_credentials (s : Settings) (log1 : List Row)
    (ts : String) (env : Env) (r1 r2 : ℚ)
    (hcred : s.tgToken = "" ∨ s.tgChatId = "")
    (h1 : env.usdThb = Except.ok r1) (h2 : env.myrThb = Except.ok r2)
    (hr2 : r2 ≠ 0) :
    (cycle_with_settings s log1 ts env).2 =
      Except.ok ⟨(process_coins ts (derive_usd_myr r1 r2) r1 r2 s.alertBps
        env s.coins).2, []⟩ ∧
    (cycle_with_settings s log1 ts env).1 =
      log1 ++ (process_coins ts (derive_usd_myr r1 r2) r1 r2 s.alertBps
        env s.coins).1 ∧
    (∀ values s2, (∀ row ∈ values, ∀ k v rest, row = k :: v :: rest →
        pyStrip k ≠ "TELEGRAM_BOT_TOKEN" ∧ pyStrip k ≠ "TELEGRAM_CHAT_ID") →
      load_settings values = some s2 → s2.tgToken = "" ∧ s2.tgChatId = "") := by
  have hsent : ¬(s.tgToken ≠ "" ∧ s.tgChatId ≠ "") := by
    rcases hcred with h | h <;> simp [h]
  refine ⟨?_, ?_, ?_⟩
  · simp [cycle_with_settings, h1, h2, hr2, hsent]
  · simp [cycle_with_settings, h1, h2, hr2]
  · intro values s2 hkey hs
    have hgt := settingsGet_no_key values "TELEGRAM_BOT_TOKEN" ""
      (fun row hrow k v rest hr => (hkey row hrow k v rest hr).1)
    have hgc := settingsGet_no_key values "TELEGRAM_CHAT_ID" ""
      (fun row hrow k v rest hr => (hkey row hrow k v rest hr).2)
    obtain ⟨_, _, _, htok, hchat⟩ := load_settings_proj values s2 hs
    rw [hgt] at htok
    rw [hgc] at hchat
    exact ⟨htok, hchat⟩

/-- Claim C10 witness: with an empty token and a nonempty chat id, the
successful cycle hands nothing to the notifier. -/
theorem no_send_without_credentials_witness :
    (cycle_with_settings ⟨200, 10, ["BTC"], "", "chat99"⟩ [headerRow] "t"
      envW).2 =
      Except.ok ⟨(process_coins "t" (derive_usd_myr 34 2) 34 2
        (Settings.alertBps ⟨200, 10, ["BTC"], "", "chat99"⟩) envW
        (Settings.coins ⟨200, 10, ["BTC"], "", "chat99"⟩)).2, []⟩ :=
  (no_send_without_credentials ⟨200, 10, ["BTC"], "", "chat99"⟩ [headerRow]
    "t" envW 34 2 (Or.inl rfl) rfl rfl (by decide)).1

/-- Claim C4 counterexample: with an empty sink, a cycle whose first FX
fetch fails still appends the header row to the sink (the header check at
the top of `main` runs before the fetches), so "nothing is appended to
the persistence sink for that cycle" is false as stated, even though the
error does propagate and no data record or alert is produced. -/
theorem fx_failure_cex :
    (main_cycle [] [] "t" envFxFail).1 = [headerRow] ∧
    (main_cycle [] [] "t" envFxFail).1 ≠ [] ∧
    (main_cycle [] [] "t" envFxFail).2 =
      Except.error "XE parse failed for USD->THB" :=
  ⟨rfl, by decide, rfl⟩

/-- Claim C4 amended: if either FX fetch fails, the error propagates
uncaught from the cycle entry point, the cycle produces zero data records
and zero alerts, and the sink is left exactly as `ensure_headers` left it
— in particular, when the sink was nonempty, nothing at all is appended
(only the one-time header append on an empty sink precedes the fetches). -/
theorem fx_failure_aborts (sr : List (List String)) (s : Settings)
    (log : List Row) (ts : String) (env : Env) (e : String)
    (hs : load_settings sr = some s)
    (hfx : env.usdThb = Except.error e ∨
      (∃ r, env.usdThb = Except.ok r ∧ env.myrThb = Except.error e)) :
    (main_cycle sr log ts env).2 = Except.error e ∧
    (main_cycle sr log ts env).1 = ensure_headers log ∧
    (log ≠ [] → (main_cycle sr log ts env).1 = log) := by
  have hmain : main_cycle sr log ts env = (ensure_headers log, Except.error e) := by
    unfold main_cycle
    rw [hs]
    rcases hfx with h | ⟨r, hu, hm⟩
    · simp [cycle_with_settings, h]
    · simp [cycle_with_settings, hu, hm]
  refine ⟨by rw [hmain], by rw [hmain], ?_⟩
  intro hne
  rw [hmain]
  unfold ensure_headers
  rw [if_neg]
  simpa [List.length_eq_zero] using hne

/-- Claim C4 witness: on a nonempty sink, the failing-FX cycle leaves the
sink exactly as it was. -/
theorem fx_failure_aborts_witness :
    (main_cycle [] [headerRow] "t" envFxFail).1 = [headerRow] :=
  (fx_failure_aborts [] ⟨200, 10, ["BTC", "ETH"], "", ""⟩ [headerRow] "t"
    envFxFail "XE parse failed for USD->THB" (by decide)
    (Or.inl rfl)).2.2 (by decide)
